import Mathlib

/-!
Verification of the retry/timeout execution engine of the DDNS repository
(`executor` package: `Execute`, `ExecuteSimple`, `ExecuteWithRetries`, and the
retry/timeout strategy variants).  Go code is shallowly embedded: `time.Duration`
(an `int64` count of nanoseconds) becomes `Int`, Go `error` values become
`Option String` (`none` models `nil`), `float64` arithmetic is modelled by exact
rationals (exact for every concrete value appearing in the statements below),
and the single-invocation attempt loop of `Execute` becomes a fuel-indexed
recursion whose fuel counts the remaining passes of the loop guard
`attempt <= maxAttempts`.  Side effects that the loop can cause but never reads
back (callback invocations, task runs, the select between `ctx.Done()` and
`time.After(delay)`) are recorded in an event trace; the outcomes of the task
and of the select race are supplied by a per-invocation oracle `ExecEnv`.
-/

namespace DDNS

/-- Go `error` values: `none` models `nil`, `some s` a non-nil error carrying
message `s`. -/
abbrev GoErr := Option String

/-- Go `time.Duration`: an `int64` count of nanoseconds.  None of the verified
claims involve arithmetic anywhere near `2^63`, so overflow is irrelevant and a
plain `Int` is used. -/
abbrev Duration := Int

/-- One second (`time.Second`), in nanoseconds. -/
def second : Duration := 1000000000

/-- Go's conversion `time.Duration(x)` of a `float64` to `int64` truncates
toward zero.  The `float64` products in the source are modelled by exact
rationals; this is the final truncation to a whole number of nanoseconds.
(Both components fed to `/` are nonnegative, so the rounding convention of
integer division is immaterial.) -/
def durOfRat (q : ℚ) : Duration :=
  if 0 ≤ q.num then q.num / (q.den : Int) else -((-q.num) / (q.den : Int))

/-- The `RetryStrategy` interface of the `executor` package, as a record of its
three methods (Go interface dispatch becomes record projection). -/
structure RetryStrategy where
  shouldRetry : Int → GoErr → Bool
  getDelay : Int → Duration
  getMaxAttempts : Int

/-- The `TimeoutStrategy` interface of the `executor` package. -/
structure TimeoutStrategy where
  getTimeout : Int → Duration

/-! ### Retry-strategy variants (timeout_strategies.go) -/

/-- Go struct `ExponentialBackoffStrategy`. -/
structure ExponentialBackoffStrategy where
  maxAttempts : Int
  baseDelay : Duration
  multiplier : ℚ
  maxDelay : Duration

/-- Constructor `NewExponentialBackoffStrategy`: stores the arguments and a default
`maxDelay` of 30s. -/
def NewExponentialBackoffStrategy (maxAttempts : Int) (baseDelay : Duration)
    (multiplier : ℚ) : ExponentialBackoffStrategy :=
  { maxAttempts := maxAttempts
    baseDelay := baseDelay
    multiplier := multiplier
    maxDelay := 30 * second }

/-- Method `WithMaxDelay` assigns `e.maxDelay = maxDelay` through the receiver pointer
and returns that same pointer.  The first component is the receiver's state
after the call, the second the state of the returned pointer; because the Go
method mutates in place and returns `e`, both are the updated record. -/
def ExponentialBackoffStrategy.withMaxDelay (e : ExponentialBackoffStrategy)
    (maxDelay : Duration) : ExponentialBackoffStrategy × ExponentialBackoffStrategy :=
  ({ e with maxDelay := maxDelay }, { e with maxDelay := maxDelay })

/-- Method `ExponentialBackoffStrategy.ShouldRetry`: `false` once `attempt` reaches
`maxAttempts`, otherwise retry exactly on a non-nil error. -/
def ExponentialBackoffStrategy.shouldRetry (e : ExponentialBackoffStrategy)
    (attempt : Int) (err : GoErr) : Bool :=
  if attempt ≥ e.maxAttempts then false
  else decide (err ≠ none)

/-- Method `ExponentialBackoffStrategy.GetDelay`:
`time.Duration(float64(baseDelay) * math.Pow(multiplier, float64(attempt-1)))`,
capped at `maxDelay`.  The source computes the product in rounded float64
arithmetic (and `math.Pow` carries no exact rounding specification); here the
product is idealized as the exact rational product, truncated toward zero.
The two computations agree only when the real-number product is exactly
representable in float64 (e.g. 3ns base with multiplier fl(1/3) at attempt 2
gives 1ns in Go but 0ns here), so no theorem below relies on the value this
idealization produces. -/
def ExponentialBackoffStrategy.getDelay (e : ExponentialBackoffStrategy)
    (attempt : Int) : Duration :=
  let delay := durOfRat ((e.baseDelay : ℚ) * e.multiplier ^ (attempt - 1))
  if delay > e.maxDelay then e.maxDelay else delay

/-- Method `ExponentialBackoffStrategy.GetMaxAttempts`. -/
def ExponentialBackoffStrategy.getMaxAttempts (e : ExponentialBackoffStrategy) : Int :=
  e.maxAttempts

/-- Pack the methods behind the `RetryStrategy` interface. -/
def ExponentialBackoffStrategy.toRetryStrategy (e : ExponentialBackoffStrategy) :
    RetryStrategy :=
  { shouldRetry := e.shouldRetry
    getDelay := e.getDelay
    getMaxAttempts := e.getMaxAttempts }

/-- Go struct `LinearBackoffStrategy`. -/
structure LinearBackoffStrategy where
  maxAttempts : Int
  baseDelay : Duration
  increment : Duration

/-- Constructor `NewLinearBackoffStrategy`. -/
def NewLinearBackoffStrategy (maxAttempts : Int) (baseDelay increment : Duration) :
    LinearBackoffStrategy :=
  { maxAttempts := maxAttempts, baseDelay := baseDelay, increment := increment }

/-- Method `LinearBackoffStrategy.ShouldRetry`. -/
def LinearBackoffStrategy.shouldRetry (l : LinearBackoffStrategy)
    (attempt : Int) (err : GoErr) : Bool :=
  if attempt ≥ l.maxAttempts then false
  else decide (err ≠ none)

/-- Method `LinearBackoffStrategy.GetDelay`: `baseDelay + time.Duration(attempt-1)*increment`. -/
def LinearBackoffStrategy.getDelay (l : LinearBackoffStrategy) (attempt : Int) : Duration :=
  l.baseDelay + (attempt - 1) * l.increment

/-- Method `LinearBackoffStrategy.GetMaxAttempts`. -/
def LinearBackoffStrategy.getMaxAttempts (l : LinearBackoffStrategy) : Int :=
  l.maxAttempts

/-- Pack the methods behind the `RetryStrategy` interface. -/
def LinearBackoffStrategy.toRetryStrategy (l : LinearBackoffStrategy) : RetryStrategy :=
  { shouldRetry := l.shouldRetry
    getDelay := l.getDelay
    getMaxAttempts := l.getMaxAttempts }

/-- Go struct `FixedDelayStrategy`. -/
structure FixedDelayStrategy where
  maxAttempts : Int
  delay : Duration

/-- Constructor `NewFixedDelayStrategy`. -/
def NewFixedDelayStrategy (maxAttempts : Int) (delay : Duration) : FixedDelayStrategy :=
  { maxAttempts := maxAttempts, delay := delay }

/-- Method `FixedDelayStrategy.ShouldRetry`. -/
def FixedDelayStrategy.shouldRetry (f : FixedDelayStrategy)
    (attempt : Int) (err : GoErr) : Bool :=
  if attempt ≥ f.maxAttempts then false
  else decide (err ≠ none)

/-- Method `FixedDelayStrategy.GetDelay`: the fixed delay. -/
def FixedDelayStrategy.getDelay (f : FixedDelayStrategy) (_attempt : Int) : Duration :=
  f.delay

/-- Method `FixedDelayStrategy.GetMaxAttempts`. -/
def FixedDelayStrategy.getMaxAttempts (f : FixedDelayStrategy) : Int :=
  f.maxAttempts

/-- Pack the methods behind the `RetryStrategy` interface. -/
def FixedDelayStrategy.toRetryStrategy (f : FixedDelayStrategy) : RetryStrategy :=
  { shouldRetry := f.shouldRetry
    getDelay := f.getDelay
    getMaxAttempts := f.getMaxAttempts }

/-- Go struct `NoRetryStrategy`: empty. -/
structure NoRetryStrategy where

/-- Constructor `NewNoRetryStrategy`. -/
def NewNoRetryStrategy : NoRetryStrategy := {}

/-- Method `NoRetryStrategy.ShouldRetry`: always `false`. -/
def NoRetryStrategy.shouldRetry (_n : NoRetryStrategy) (_attempt : Int) (_err : GoErr) :
    Bool :=
  false

/-- Method `NoRetryStrategy.GetDelay`: always `0`. -/
def NoRetryStrategy.getDelay (_n : NoRetryStrategy) (_attempt : Int) : Duration :=
  0

/-- Method `NoRetryStrategy.GetMaxAttempts`: `1`. -/
def NoRetryStrategy.getMaxAttempts (_n : NoRetryStrategy) : Int :=
  1

/-- Pack the methods behind the `RetryStrategy` interface. -/
def NoRetryStrategy.toRetryStrategy (n : NoRetryStrategy) : RetryStrategy :=
  { shouldRetry := n.shouldRetry
    getDelay := n.getDelay
    getMaxAttempts := n.getMaxAttempts }

/-- Go struct `ConditionalRetryStrategy`: the two function fields are nil-able in Go,
hence `Option`-valued here. -/
structure ConditionalRetryStrategy where
  maxAttempts : Int
  baseDelay : Duration
  shouldRetryFn : Option (Int → GoErr → Bool)
  getDelayFn : Option (Int → Duration)

/-- Constructor `NewConditionalRetryStrategy`. -/
def NewConditionalRetryStrategy (maxAttempts : Int) (baseDelay : Duration)
    (shouldRetryFn : Option (Int → GoErr → Bool))
    (getDelayFn : Option (Int → Duration)) : ConditionalRetryStrategy :=
  { maxAttempts := maxAttempts
    baseDelay := baseDelay
    shouldRetryFn := shouldRetryFn
    getDelayFn := getDelayFn }

/-- Method `ConditionalRetryStrategy.ShouldRetry`: the custom predicate when non-nil,
else retry on any non-nil error; `false` once `attempt ≥ maxAttempts`. -/
def ConditionalRetryStrategy.shouldRetry (c : ConditionalRetryStrategy)
    (attempt : Int) (err : GoErr) : Bool :=
  if attempt ≥ c.maxAttempts then false
  else
    match c.shouldRetryFn with
    | some fn => fn attempt err
    | none => decide (err ≠ none)

/-- Method `ConditionalRetryStrategy.GetDelay`: the custom function when non-nil, else
the base delay. -/
def ConditionalRetryStrategy.getDelay (c : ConditionalRetryStrategy)
    (attempt : Int) : Duration :=
  match c.getDelayFn with
  | some fn => fn attempt
  | none => c.baseDelay

/-- Method `ConditionalRetryStrategy.GetMaxAttempts`. -/
def ConditionalRetryStrategy.getMaxAttempts (c : ConditionalRetryStrategy) : Int :=
  c.maxAttempts

/-- Pack the methods behind the `RetryStrategy` interface. -/
def ConditionalRetryStrategy.toRetryStrategy (c : ConditionalRetryStrategy) :
    RetryStrategy :=
  { shouldRetry := c.shouldRetry
    getDelay := c.getDelay
    getMaxAttempts := c.getMaxAttempts }

/-! ### Timeout-strategy variants (timeout_strategies.go) -/

/-- Go struct `FixedTimeoutStrategy`. -/
structure FixedTimeoutStrategy where
  timeout : Duration

/-- Constructor `NewFixedTimeoutStrategy`. -/
def NewFixedTimeoutStrategy (timeout : Duration) : FixedTimeoutStrategy :=
  { timeout := timeout }

/-- Method `FixedTimeoutStrategy.GetTimeout`: the fixed timeout. -/
def FixedTimeoutStrategy.getTimeout (f : FixedTimeoutStrategy) (_attempt : Int) :
    Duration :=
  f.timeout

/-- Pack the method behind the `TimeoutStrategy` interface. -/
def FixedTimeoutStrategy.toTimeoutStrategy (f : FixedTimeoutStrategy) :
    TimeoutStrategy :=
  { getTimeout := f.getTimeout }

/-- Go struct `ProgressiveTimeoutStrategy`. -/
structure ProgressiveTimeoutStrategy where
  baseTimeout : Duration
  multiplier : ℚ
  maxTimeout : Duration

/-- Constructor `NewProgressiveTimeoutStrategy`. -/
def NewProgressiveTimeoutStrategy (baseTimeout : Duration) (multiplier : ℚ)
    (maxTimeout : Duration) : ProgressiveTimeoutStrategy :=
  { baseTimeout := baseTimeout, multiplier := multiplier, maxTimeout := maxTimeout }

/-- Method `ProgressiveTimeoutStrategy.GetTimeout`:
`time.Duration(float64(baseTimeout) * math.Pow(multiplier, float64(attempt-1)))`,
capped at `maxTimeout`.  Same exact-rational idealization of the source's
rounded float64 product as `ExponentialBackoffStrategy.getDelay`; no theorem
below relies on the value it produces. -/
def ProgressiveTimeoutStrategy.getTimeout (p : ProgressiveTimeoutStrategy)
    (attempt : Int) : Duration :=
  let timeout := durOfRat ((p.baseTimeout : ℚ) * p.multiplier ^ (attempt - 1))
  if timeout > p.maxTimeout then p.maxTimeout else timeout

/-- Pack the method behind the `TimeoutStrategy` interface. -/
def ProgressiveTimeoutStrategy.toTimeoutStrategy (p : ProgressiveTimeoutStrategy) :
    TimeoutStrategy :=
  { getTimeout := p.getTimeout }

/-- Go struct `LinearTimeoutStrategy`. -/
structure LinearTimeoutStrategy where
  baseTimeout : Duration
  increment : Duration
  maxTimeout : Duration

/-- Constructor `NewLinearTimeoutStrategy`. -/
def NewLinearTimeoutStrategy (baseTimeout increment maxTimeout : Duration) :
    LinearTimeoutStrategy :=
  { baseTimeout := baseTimeout, increment := increment, maxTimeout := maxTimeout }

/-- Method `LinearTimeoutStrategy.GetTimeout`: `baseTimeout + time.Duration(attempt-1)*increment`,
capped at `maxTimeout`. -/
def LinearTimeoutStrategy.getTimeout (l : LinearTimeoutStrategy) (attempt : Int) :
    Duration :=
  let timeout := l.baseTimeout + (attempt - 1) * l.increment
  if timeout > l.maxTimeout then l.maxTimeout else timeout

/-- Pack the method behind the `TimeoutStrategy` interface. -/
def LinearTimeoutStrategy.toTimeoutStrategy (l : LinearTimeoutStrategy) :
    TimeoutStrategy :=
  { getTimeout := l.getTimeout }

/-- Go struct `ConditionalTimeoutStrategy`. -/
structure ConditionalTimeoutStrategy where
  getTimeoutFn : Int → Duration

/-- Constructor `NewConditionalTimeoutStrategy`. -/
def NewConditionalTimeoutStrategy (getTimeoutFn : Int → Duration) :
    ConditionalTimeoutStrategy :=
  { getTimeoutFn := getTimeoutFn }

/-- Method `ConditionalTimeoutStrategy.GetTimeout`. -/
def ConditionalTimeoutStrategy.getTimeout (c : ConditionalTimeoutStrategy)
    (attempt : Int) : Duration :=
  c.getTimeoutFn attempt

/-- Pack the method behind the `TimeoutStrategy` interface. -/
def ConditionalTimeoutStrategy.toTimeoutStrategy (c : ConditionalTimeoutStrategy) :
    TimeoutStrategy :=
  { getTimeout := c.getTimeout }

/-! ### Executor, Result and the attempt loop (executor.go) -/

/-- Go struct `Result[T]`: value, error and the attempt number that produced them.  The
Go zero value is `⟨zero-of-T, nil, 0⟩`. -/
structure Result (T : Type) where
  value : T
  error : GoErr
  attempt : Int
deriving Repr, DecidableEq

/-- Go struct `Executor`: the two strategies plus the two optional callbacks.  The
callbacks are pure instrumentation the loop never reads back, so only their
presence (Go: non-nil-ness) is kept; each invocation is recorded in the event
trace of `Execute`. -/
structure Executor where
  retryStrategy : RetryStrategy
  timeoutStrategy : TimeoutStrategy
  onRetry : Bool
  onTimeout : Bool

/-- Go type `ExecutorOption`. -/
abbrev ExecutorOption := Executor → Executor

/-- Constructor `NewExecutor`: defaults (exponential backoff 3 attempts / 1s base / x2
multiplier, fixed 30s timeout, no callbacks) overridden by the options in
order. -/
def NewExecutor (options : List ExecutorOption) : Executor :=
  options.foldl (fun e option => option e)
    { retryStrategy := (NewExponentialBackoffStrategy 3 second 2).toRetryStrategy
      timeoutStrategy := (NewFixedTimeoutStrategy (30 * second)).toTimeoutStrategy
      onRetry := false
      onTimeout := false }

/-- Option `WithRetryStrategy`. -/
def WithRetryStrategy (strategy : RetryStrategy) : ExecutorOption :=
  fun e => { e with retryStrategy := strategy }

/-- Option `WithTimeoutStrategy`. -/
def WithTimeoutStrategy (strategy : TimeoutStrategy) : ExecutorOption :=
  fun e => { e with timeoutStrategy := strategy }

/-- Option `WithRetryCallback`: installs a (non-nil) onRetry callback. -/
def WithRetryCallback : ExecutorOption :=
  fun e => { e with onRetry := true }

/-- Option `WithTimeoutCallback`: installs a (non-nil) onTimeout callback. -/
def WithTimeoutCallback : ExecutorOption :=
  fun e => { e with onTimeout := true }

/-- Per-invocation oracle: `task attempt` is what `task(taskCtx)` returns on
that attempt (any dependence on the per-attempt deadline is a function of the
attempt number, since the timeout itself is); `ctxDone attempt` tells whether
`<-ctx.Done()` wins the select against `<-time.After(delay)` during the wait
after that attempt; `ctxErr` is the message of the (non-nil) `ctx.Err()` of the
cancelled parent context. -/
structure ExecEnv (T : Type) where
  task : Int → T × GoErr
  ctxDone : Int → Bool
  ctxErr : String

/-- Observable events of one `Execute` invocation, in program order. -/
inductive Event (T : Type) where
  | timeoutCb (attempt : Int) (timeout : Duration)
  | taskRun (attempt : Int) (value : T) (err : GoErr)
  | shouldRetryQuery (attempt : Int) (err : GoErr) (answer : Bool)
  | retryCb (attempt : Int) (err : GoErr) (delay : Duration)
  | waitDone (attempt : Int)
  | ctxCancelled (attempt : Int)
deriving Repr, DecidableEq

/-- What `Execute` hands back: the `*Result[T]` (never nil in the source), the
bare `error` return, and the event trace. -/
structure ExecOutcome (T : Type) where
  result : Result T
  err : GoErr
  trace : List (Event T)
deriving Repr, DecidableEq

variable {T : Type}

/-- The body of `Execute`'s loop `for attempt := 1; attempt <= maxAttempts;
attempt++`, entered at the guard check for `attempt`.  `fuel` counts the
remaining guard passes — `(maxAttempts - attempt + 1).toNat` at every entry —
so `fuel = 0` is exactly the guard failing, where the source falls through to
`return &lastResult, lastResult.Error`.  The incoming `last` is `lastResult`
before the iteration; the loop body overwrites it before any use, so the
`fuel + 1` case ignores it.  Source order within one iteration: GetTimeout,
context.WithTimeout, optional onTimeout callback, the task, cancel(),
lastResult assignment, the `err == nil` early return, ShouldRetry (break on
false), and — only when `attempt < maxAttempts` — GetDelay, optional onRetry
callback, then the select between `ctx.Done()` and `time.After(delay)`. -/
def executeLoop (ex : Executor) (env : ExecEnv T) (maxAttempts : Int) :
    Result T → Int → Nat → ExecOutcome T
  | last, _, 0 => ⟨last, last.error, []⟩
  | _, attempt, fuel + 1 =>
    let timeout := ex.timeoutStrategy.getTimeout attempt
    let cbEvents : List (Event T) :=
      if ex.onTimeout then [.timeoutCb attempt timeout] else []
    let value := (env.task attempt).1
    let err := (env.task attempt).2
    let events := cbEvents ++ [.taskRun attempt value err]
    let lastResult : Result T := ⟨value, err, attempt⟩
    if err = none then
      ⟨lastResult, none, events⟩
    else
      let sr := ex.retryStrategy.shouldRetry attempt err
      let events := events ++ [.shouldRetryQuery attempt err sr]
      if sr = false then
        ⟨lastResult, lastResult.error, events⟩
      else if attempt < maxAttempts then
        let delay := ex.retryStrategy.getDelay attempt
        let events := events ++ (if ex.onRetry then [.retryCb attempt err delay] else [])
        if env.ctxDone attempt then
          ⟨{ lastResult with error := some env.ctxErr }, some env.ctxErr,
            events ++ [.ctxCancelled attempt]⟩
        else
          let rest := executeLoop ex env maxAttempts lastResult (attempt + 1) fuel
          ⟨rest.result, rest.err, events ++ [.waitDone attempt] ++ rest.trace⟩
      else
        let rest := executeLoop ex env maxAttempts lastResult (attempt + 1) fuel
        ⟨rest.result, rest.err, events ++ rest.trace⟩

/-- Go function `Execute`: reads `GetMaxAttempts()` once, runs the loop from `attempt = 1`
with `lastResult` zero-initialised (`zero` models Go's zero value of `T`). -/
def Execute (ex : Executor) (env : ExecEnv T) (zero : T) : ExecOutcome T :=
  let maxAttempts := ex.retryStrategy.getMaxAttempts
  executeLoop ex env maxAttempts ⟨zero, none, 0⟩ 1 maxAttempts.toNat

/-- Go function `ExecuteSimple`: unwraps `Execute`, returning the zero value alongside a
non-nil bare error, else `(result.Value, result.Error)`. -/
def ExecuteSimple (ex : Executor) (env : ExecEnv T) (zero : T) : T × GoErr :=
  let out := Execute ex env zero
  match out.err with
  | some e => (zero, some e)
  | none => (out.result.value, out.result.error)

/-- Go function `ExecuteWithRetries`: builds an executor from
`NewFixedDelayStrategy(maxRetries+1, delay)` and
`NewFixedTimeoutStrategy(timeout)` and runs `ExecuteSimple`. -/
def ExecuteWithRetries (env : ExecEnv T) (maxRetries : Int)
    (delay timeout : Duration) (zero : T) : T × GoErr :=
  let ex := NewExecutor
    [WithRetryStrategy (NewFixedDelayStrategy (maxRetries + 1) delay).toRetryStrategy,
     WithTimeoutStrategy (NewFixedTimeoutStrategy timeout).toTimeoutStrategy]
  ExecuteSimple ex env zero

/-- The executor that the C7 spec sentence describes, written directly from the
spec's words (an Executor holding exactly Fixed-delay(maxRetries+1, delay) and
Fixed timeout(timeout), no callbacks) rather than through the option pipeline. -/
def specFixedRetryExecutor (maxRetries : Int) (delay timeout : Duration) : Executor :=
  { retryStrategy := (NewFixedDelayStrategy (maxRetries + 1) delay).toRetryStrategy
    timeoutStrategy := (NewFixedTimeoutStrategy timeout).toTimeoutStrategy
    onRetry := false
    onTimeout := false }

/-! ### Trace observations -/

/-- Keep only the events C10 is about: timeout-callback invocations and task
runs. -/
def isTimeoutOrTask (e : Event T) : Bool :=
  match e with
  | .timeoutCb _ _ => true
  | .taskRun _ _ _ => true
  | _ => false

/-- Projection of a trace to timeout-callback and task-run events. -/
def ttProj (trace : List (Event T)) : List (Event T) :=
  trace.filter isTimeoutOrTask

/-- Is the event a task run? -/
def isTaskRun (e : Event T) : Bool :=
  match e with
  | .taskRun _ _ _ => true
  | _ => false

/-- How many times the task ran. -/
def taskRunCount (trace : List (Event T)) : Nat :=
  (trace.filter isTaskRun).length

/-- Is the event a timeout-callback invocation? -/
def isTimeoutCb (e : Event T) : Bool :=
  match e with
  | .timeoutCb _ _ => true
  | _ => false

/-- How many times the onTimeout callback was invoked. -/
def timeoutCbCount (trace : List (Event T)) : Nat :=
  (trace.filter isTimeoutCb).length

/-- The timeout-callback/task-run events one attempt generates: the callback
(when configured) with that attempt's timeout, then the task run. -/
def attemptBlock (ex : Executor) (env : ExecEnv T) (a : Int) : List (Event T) :=
  (if ex.onTimeout then [.timeoutCb a (ex.timeoutStrategy.getTimeout a)] else [])
    ++ [.taskRun a (env.task a).1 (env.task a).2]

/-- The timeout-callback/task-run events of `n` consecutive attempts starting
at attempt `a`. -/
def blockRange (ex : Executor) (env : ExecEnv T) (a : Int) : Nat → List (Event T)
  | 0 => []
  | n + 1 => attemptBlock ex env a ++ blockRange ex env (a + 1) n


variable {T : Type}

theorem executeLoop_zero (ex : Executor) (env : ExecEnv T) (maxA : Int)
    (last : Result T) (a : Int) :
    executeLoop ex env maxA last a 0 = ⟨last, last.error, []⟩ := rfl

theorem executeLoop_success (ex : Executor) (env : ExecEnv T) (maxA : Int)
    (last : Result T) (a : Int) (fuel : Nat) (h : (env.task a).2 = none) :
    executeLoop ex env maxA last a (fuel + 1) =
      ⟨⟨(env.task a).1, none, a⟩, none, attemptBlock ex env a⟩ := by
  simp [executeLoop, attemptBlock, h]

theorem executeLoop_break (ex : Executor) (env : ExecEnv T) (maxA : Int)
    (last : Result T) (a : Int) (fuel : Nat) (h : (env.task a).2 ≠ none)
    (hsr : ex.retryStrategy.shouldRetry a (env.task a).2 = false) :
    executeLoop ex env maxA last a (fuel + 1) =
      ⟨⟨(env.task a).1, (env.task a).2, a⟩, (env.task a).2,
        attemptBlock ex env a ++ [.shouldRetryQuery a (env.task a).2 false]⟩ := by
  simp [executeLoop, attemptBlock, h, hsr]

theorem executeLoop_cancel (ex : Executor) (env : ExecEnv T) (maxA : Int)
    (last : Result T) (a : Int) (fuel : Nat) (h : (env.task a).2 ≠ none)
    (hsr : ex.retryStrategy.shouldRetry a (env.task a).2 = true)
    (hlt : a < maxA) (hcd : env.ctxDone a = true) :
    executeLoop ex env maxA last a (fuel + 1) =
      ⟨⟨(env.task a).1, some env.ctxErr, a⟩, some env.ctxErr,
        attemptBlock ex env a ++ [.shouldRetryQuery a (env.task a).2 true]
          ++ (if ex.onRetry then
                [.retryCb a (env.task a).2 (ex.retryStrategy.getDelay a)] else [])
          ++ [.ctxCancelled a]⟩ := by
  simp [executeLoop, attemptBlock, h, hsr, hlt, hcd]

theorem executeLoop_wait (ex : Executor) (env : ExecEnv T) (maxA : Int)
    (last : Result T) (a : Int) (fuel : Nat) (h : (env.task a).2 ≠ none)
    (hsr : ex.retryStrategy.shouldRetry a (env.task a).2 = true)
    (hlt : a < maxA) (hcd : env.ctxDone a = false) :
    executeLoop ex env maxA last a (fuel + 1) =
      ⟨(executeLoop ex env maxA ⟨(env.task a).1, (env.task a).2, a⟩ (a + 1) fuel).result,
        (executeLoop ex env maxA ⟨(env.task a).1, (env.task a).2, a⟩ (a + 1) fuel).err,
        attemptBlock ex env a ++ [.shouldRetryQuery a (env.task a).2 true]
          ++ (if ex.onRetry then
                [.retryCb a (env.task a).2 (ex.retryStrategy.getDelay a)] else [])
          ++ [.waitDone a]
          ++ (executeLoop ex env maxA ⟨(env.task a).1, (env.task a).2, a⟩ (a + 1) fuel).trace⟩ := by
  simp [executeLoop, attemptBlock, h, hsr, hlt, hcd]

theorem executeLoop_nowait (ex : Executor) (env : ExecEnv T) (maxA : Int)
    (last : Result T) (a : Int) (fuel : Nat) (h : (env.task a).2 ≠ none)
    (hsr : ex.retryStrategy.shouldRetry a (env.task a).2 = true)
    (hlt : ¬ a < maxA) :
    executeLoop ex env maxA last a (fuel + 1) =
      ⟨(executeLoop ex env maxA ⟨(env.task a).1, (env.task a).2, a⟩ (a + 1) fuel).result,
        (executeLoop ex env maxA ⟨(env.task a).1, (env.task a).2, a⟩ (a + 1) fuel).err,
        attemptBlock ex env a ++ [.shouldRetryQuery a (env.task a).2 true]
          ++ (executeLoop ex env maxA ⟨(env.task a).1, (env.task a).2, a⟩ (a + 1) fuel).trace⟩ := by
  simp [executeLoop, attemptBlock, h, hsr, hlt]

@[simp] theorem ttProj_append (s t : List (Event T)) :
    ttProj (s ++ t) = ttProj s ++ ttProj t := List.filter_append ..

@[simp] theorem ttProj_nil : ttProj ([] : List (Event T)) = [] := rfl

@[simp] theorem ttProj_query (a : Int) (e : GoErr) (b : Bool) :
    ttProj [(Event.shouldRetryQuery a e b : Event T)] = [] := rfl

@[simp] theorem ttProj_retryCb (a : Int) (e : GoErr) (d : Duration) :
    ttProj [(Event.retryCb a e d : Event T)] = [] := rfl

@[simp] theorem ttProj_waitDone (a : Int) :
    ttProj [(Event.waitDone a : Event T)] = [] := rfl

@[simp] theorem ttProj_ctxCancelled (a : Int) :
    ttProj [(Event.ctxCancelled a : Event T)] = [] := rfl

@[simp] theorem taskRunCount_append (s t : List (Event T)) :
    taskRunCount (s ++ t) = taskRunCount s + taskRunCount t := by
  simp [taskRunCount, List.filter_append]

@[simp] theorem taskRunCount_nil : taskRunCount ([] : List (Event T)) = 0 := rfl

@[simp] theorem taskRunCount_query (a : Int) (e : GoErr) (b : Bool) :
    taskRunCount [(Event.shouldRetryQuery a e b : Event T)] = 0 := rfl

@[simp] theorem taskRunCount_retryCb (a : Int) (e : GoErr) (d : Duration) :
    taskRunCount [(Event.retryCb a e d : Event T)] = 0 := rfl

@[simp] theorem taskRunCount_waitDone (a : Int) :
    taskRunCount [(Event.waitDone a : Event T)] = 0 := rfl

@[simp] theorem taskRunCount_ctxCancelled (a : Int) :
    taskRunCount [(Event.ctxCancelled a : Event T)] = 0 := rfl

@[simp] theorem timeoutCbCount_append (s t : List (Event T)) :
    timeoutCbCount (s ++ t) = timeoutCbCount s + timeoutCbCount t := by
  simp [timeoutCbCount, List.filter_append]

@[simp] theorem timeoutCbCount_nil : timeoutCbCount ([] : List (Event T)) = 0 := rfl

@[simp] theorem timeoutCbCount_query (a : Int) (e : GoErr) (b : Bool) :
    timeoutCbCount [(Event.shouldRetryQuery a e b : Event T)] = 0 := rfl

@[simp] theorem timeoutCbCount_retryCb (a : Int) (e : GoErr) (d : Duration) :
    timeoutCbCount [(Event.retryCb a e d : Event T)] = 0 := rfl

@[simp] theorem timeoutCbCount_waitDone (a : Int) :
    timeoutCbCount [(Event.waitDone a : Event T)] = 0 := rfl

@[simp] theorem timeoutCbCount_ctxCancelled (a : Int) :
    timeoutCbCount [(Event.ctxCancelled a : Event T)] = 0 := rfl


@[simp] theorem ttProj_cons_query (a : Int) (e : GoErr) (b : Bool) (t : List (Event T)) :
    ttProj (Event.shouldRetryQuery a e b :: t) = ttProj t := rfl

@[simp] theorem ttProj_cons_retryCb (a : Int) (e : GoErr) (d : Duration) (t : List (Event T)) :
    ttProj (Event.retryCb a e d :: t) = ttProj t := rfl

@[simp] theorem ttProj_cons_waitDone (a : Int) (t : List (Event T)) :
    ttProj (Event.waitDone a :: t) = ttProj t := rfl

@[simp] theorem ttProj_cons_ctxCancelled (a : Int) (t : List (Event T)) :
    ttProj (Event.ctxCancelled a :: t) = ttProj t := rfl

@[simp] theorem taskRunCount_cons_query (a : Int) (e : GoErr) (b : Bool) (t : List (Event T)) :
    taskRunCount (Event.shouldRetryQuery a e b :: t) = taskRunCount t := rfl

@[simp] theorem taskRunCount_cons_retryCb (a : Int) (e : GoErr) (d : Duration) (t : List (Event T)) :
    taskRunCount (Event.retryCb a e d :: t) = taskRunCount t := rfl

@[simp] theorem taskRunCount_cons_waitDone (a : Int) (t : List (Event T)) :
    taskRunCount (Event.waitDone a :: t) = taskRunCount t := rfl

@[simp] theorem taskRunCount_cons_ctxCancelled (a : Int) (t : List (Event T)) :
    taskRunCount (Event.ctxCancelled a :: t) = taskRunCount t := rfl

@[simp] theorem timeoutCbCount_cons_query (a : Int) (e : GoErr) (b : Bool) (t : List (Event T)) :
    timeoutCbCount (Event.shouldRetryQuery a e b :: t) = timeoutCbCount t := rfl

@[simp] theorem timeoutCbCount_cons_retryCb (a : Int) (e : GoErr) (d : Duration) (t : List (Event T)) :
    timeoutCbCount (Event.retryCb a e d :: t) = timeoutCbCount t := rfl

@[simp] theorem timeoutCbCount_cons_waitDone (a : Int) (t : List (Event T)) :
    timeoutCbCount (Event.waitDone a :: t) = timeoutCbCount t := rfl

@[simp] theorem timeoutCbCount_cons_ctxCancelled (a : Int) (t : List (Event T)) :
    timeoutCbCount (Event.ctxCancelled a :: t) = timeoutCbCount t := rfl

@[simp] theorem ttProj_attemptBlock (ex : Executor) (env : ExecEnv T) (a : Int) :
    ttProj (attemptBlock ex env a) = attemptBlock ex env a := by
  cases hto : ex.onTimeout <;> simp [ttProj, attemptBlock, isTimeoutOrTask, hto]

@[simp] theorem taskRunCount_attemptBlock (ex : Executor) (env : ExecEnv T) (a : Int) :
    taskRunCount (attemptBlock ex env a) = 1 := by
  cases hto : ex.onTimeout <;> simp [taskRunCount, attemptBlock, isTaskRun, hto]

theorem timeoutCbCount_attemptBlock (ex : Executor) (env : ExecEnv T) (a : Int)
    (hto : ex.onTimeout = true) :
    timeoutCbCount (attemptBlock ex env a) = 1 := by
  simp [timeoutCbCount, attemptBlock, isTimeoutCb, hto]

theorem executeLoop_run (ex : Executor) (env : ExecEnv T) (maxA : Int) :
    ∀ (fuel : Nat) (a : Int) (last : Result T),
      ∃ n : Nat, n ≤ fuel ∧
        (executeLoop ex env maxA last a (fuel + 1)).result.attempt = a + n ∧
        ttProj (executeLoop ex env maxA last a (fuel + 1)).trace
          = blockRange ex env a (n + 1) ∧
        taskRunCount (executeLoop ex env maxA last a (fuel + 1)).trace = n + 1 ∧
        ((executeLoop ex env maxA last a (fuel + 1)).result.error = none →
          env.task (executeLoop ex env maxA last a (fuel + 1)).result.attempt =
            ((executeLoop ex env maxA last a (fuel + 1)).result.value, none)) ∧
        (ex.onTimeout = true →
          timeoutCbCount (executeLoop ex env maxA last a (fuel + 1)).trace = n + 1) := by
  intro fuel
  induction fuel with
  | zero =>
    intro a last
    refine ⟨0, Nat.le_refl 0, ?_⟩
    by_cases h : (env.task a).2 = none
    · rw [executeLoop_success ex env maxA last a 0 h]
      refine ⟨by simp, by simp [blockRange], by simp, ?_, ?_⟩
      · intro _; simp [Prod.ext_iff, h]
      · intro hto; simp [timeoutCbCount_attemptBlock ex env a hto]
    · cases hsr : ex.retryStrategy.shouldRetry a (env.task a).2 with
      | false =>
        rw [executeLoop_break ex env maxA last a 0 h hsr]
        refine ⟨by simp, by simp [blockRange], by simp, by simp [h], ?_⟩
        intro hto; simp [timeoutCbCount_attemptBlock ex env a hto]
      | true =>
        by_cases hlt : a < maxA
        · cases hcd : env.ctxDone a with
          | true =>
            rw [executeLoop_cancel ex env maxA last a 0 h hsr hlt hcd]
            refine ⟨by simp, ?_, ?_, by simp, ?_⟩
            · cases hor : ex.onRetry <;> simp [blockRange, hor]
            · cases hor : ex.onRetry <;> simp [hor]
            · intro hto
              cases hor : ex.onRetry <;>
                simp [hor, timeoutCbCount_attemptBlock ex env a hto]
          | false =>
            rw [executeLoop_wait ex env maxA last a 0 h hsr hlt hcd, executeLoop_zero]
            refine ⟨by simp, ?_, ?_, by simp [h], ?_⟩
            · cases hor : ex.onRetry <;> simp [blockRange, hor]
            · cases hor : ex.onRetry <;> simp [hor]
            · intro hto
              cases hor : ex.onRetry <;>
                simp [hor, timeoutCbCount_attemptBlock ex env a hto]
        · rw [executeLoop_nowait ex env maxA last a 0 h hsr hlt, executeLoop_zero]
          refine ⟨by simp, by simp [blockRange], by simp, by simp [h], ?_⟩
          intro hto; simp [timeoutCbCount_attemptBlock ex env a hto]
  | succ m ih =>
    intro a last
    by_cases h : (env.task a).2 = none
    · rw [executeLoop_success ex env maxA last a (m + 1) h]
      refine ⟨0, Nat.zero_le _, by simp, by simp [blockRange], by simp, ?_, ?_⟩
      · intro _; simp [Prod.ext_iff, h]
      · intro hto; simp [timeoutCbCount_attemptBlock ex env a hto]
    · cases hsr : ex.retryStrategy.shouldRetry a (env.task a).2 with
      | false =>
        rw [executeLoop_break ex env maxA last a (m + 1) h hsr]
        refine ⟨0, Nat.zero_le _, by simp, by simp [blockRange], by simp,
          by simp [h], ?_⟩
        intro hto; simp [timeoutCbCount_attemptBlock ex env a hto]
      | true =>
        by_cases hlt : a < maxA
        · cases hcd : env.ctxDone a with
          | true =>
            rw [executeLoop_cancel ex env maxA last a (m + 1) h hsr hlt hcd]
            refine ⟨0, Nat.zero_le _, by simp, ?_, ?_, by simp, ?_⟩
            · cases hor : ex.onRetry <;> simp [blockRange, hor]
            · cases hor : ex.onRetry <;> simp [hor]
            · intro hto
              cases hor : ex.onRetry <;>
                simp [hor, timeoutCbCount_attemptBlock ex env a hto]
          | false =>
            rw [executeLoop_wait ex env maxA last a (m + 1) h hsr hlt hcd]
            obtain ⟨n, hn, hat, hproj, hcount, herr, hcb⟩ :=
              ih (a + 1) ⟨(env.task a).1, (env.task a).2, a⟩
            refine ⟨n + 1, by omega, by simp; omega, ?_, ?_, ?_, ?_⟩
            · cases hor : ex.onRetry <;> simp [blockRange, hor, hproj]
            · cases hor : ex.onRetry <;> simp [hor, hcount] <;> omega
            · simpa using herr
            · intro hto
              cases hor : ex.onRetry <;>
                simp [hor, hcb hto, timeoutCbCount_attemptBlock ex env a hto] <;> omega
        · rw [executeLoop_nowait ex env maxA last a (m + 1) h hsr hlt]
          obtain ⟨n, hn, hat, hproj, hcount, herr, hcb⟩ :=
            ih (a + 1) ⟨(env.task a).1, (env.task a).2, a⟩
          refine ⟨n + 1, by omega, by simp; omega, ?_, ?_, ?_, ?_⟩
          · simp [blockRange, hproj]
          · simp [hcount]; omega
          · simpa using herr
          · intro hto
            simp [hcb hto, timeoutCbCount_attemptBlock ex env a hto]; omega

theorem attemptBlock_taskRun_mem {ex : Executor} {env : ExecEnv T} {a a' : Int}
    {v : T} {e : GoErr} (hx : Event.taskRun a' v e ∈ attemptBlock ex env a) :
    a' = a := by
  cases hto : ex.onTimeout <;> simp [attemptBlock, hto] at hx <;> exact hx.1

@[simp] theorem attemptBlock_no_ctxCancelled (ex : Executor) (env : ExecEnv T)
    (a k : Int) : (Event.ctxCancelled k : Event T) ∉ attemptBlock ex env a := by
  cases hto : ex.onTimeout <;> simp [attemptBlock, hto]

@[simp] theorem attemptBlock_no_query (ex : Executor) (env : ExecEnv T)
    (a k : Int) (e : GoErr) (b : Bool) :
    (Event.shouldRetryQuery k e b : Event T) ∉ attemptBlock ex env a := by
  cases hto : ex.onTimeout <;> simp [attemptBlock, hto]

theorem executeLoop_err_eq (ex : Executor) (env : ExecEnv T) (maxA : Int) :
    ∀ (fuel : Nat) (a : Int) (last : Result T),
      (executeLoop ex env maxA last a fuel).err =
        (executeLoop ex env maxA last a fuel).result.error := by
  intro fuel
  induction fuel with
  | zero => intro a last; rfl
  | succ m ih =>
    intro a last
    by_cases h : (env.task a).2 = none
    · rw [executeLoop_success ex env maxA last a m h]
    · cases hsr : ex.retryStrategy.shouldRetry a (env.task a).2 with
      | false => rw [executeLoop_break ex env maxA last a m h hsr]
      | true =>
        by_cases hlt : a < maxA
        · cases hcd : env.ctxDone a with
          | true => rw [executeLoop_cancel ex env maxA last a m h hsr hlt hcd]
          | false =>
            rw [executeLoop_wait ex env maxA last a m h hsr hlt hcd]
            exact ih (a + 1) ⟨(env.task a).1, (env.task a).2, a⟩
        · rw [executeLoop_nowait ex env maxA last a m h hsr hlt]
          exact ih (a + 1) ⟨(env.task a).1, (env.task a).2, a⟩

theorem executeLoop_cancel_mem (ex : Executor) (env : ExecEnv T) (maxA : Int) :
    ∀ (fuel : Nat) (a : Int) (last : Result T) (k : Int),
      Event.ctxCancelled k ∈ (executeLoop ex env maxA last a fuel).trace →
        a ≤ k ∧
        (executeLoop ex env maxA last a fuel).result =
          ⟨(env.task k).1, some env.ctxErr, k⟩ ∧
        (executeLoop ex env maxA last a fuel).err = some env.ctxErr ∧
        (env.task k).2 ≠ none ∧
        (∀ a' v e, Event.taskRun a' v e ∈ (executeLoop ex env maxA last a fuel).trace
          → a' ≤ k) ∧
        ∃ t, (executeLoop ex env maxA last a fuel).trace
          = t ++ [Event.ctxCancelled k] := by
  intro fuel
  induction fuel with
  | zero => intro a last k hmem; simp [executeLoop_zero] at hmem
  | succ m ih =>
    intro a last k hmem
    by_cases h : (env.task a).2 = none
    · rw [executeLoop_success ex env maxA last a m h] at hmem ⊢
      simp at hmem
    · cases hsr : ex.retryStrategy.shouldRetry a (env.task a).2 with
      | false =>
        rw [executeLoop_break ex env maxA last a m h hsr] at hmem ⊢
        simp at hmem
      | true =>
        by_cases hlt : a < maxA
        · cases hcd : env.ctxDone a with
          | true =>
            rw [executeLoop_cancel ex env maxA last a m h hsr hlt hcd] at hmem ⊢
            have hk : k = a := by
              cases hor : ex.onRetry <;> simp [hor] at hmem <;> exact hmem
            subst hk
            refine ⟨le_refl k, rfl, rfl, h, ?_, ?_⟩
            · intro a' v e hx
              cases hor : ex.onRetry <;> simp [hor] at hx <;>
                [exact le_of_eq (attemptBlock_taskRun_mem hx);
                 exact le_of_eq (attemptBlock_taskRun_mem hx)]
            · refine ⟨attemptBlock ex env k ++ [.shouldRetryQuery k (env.task k).2 true]
                ++ (if ex.onRetry then
                      [.retryCb k (env.task k).2 (ex.retryStrategy.getDelay k)]
                    else []), by simp⟩
          | false =>
            rw [executeLoop_wait ex env maxA last a m h hsr hlt hcd] at hmem ⊢
            have hrest : Event.ctxCancelled k ∈
                (executeLoop ex env maxA ⟨(env.task a).1, (env.task a).2, a⟩
                  (a + 1) m).trace := by
              cases hor : ex.onRetry <;> simp [hor] at hmem <;> exact hmem
            obtain ⟨hak, hres, herr, hnn, htr, t, ht⟩ :=
              ih (a + 1) ⟨(env.task a).1, (env.task a).2, a⟩ k hrest
            refine ⟨by omega, hres, herr, hnn, ?_, ?_⟩
            · intro a' v e hx
              have hx2 : Event.taskRun a' v e ∈ attemptBlock ex env a ∨
                  Event.taskRun a' v e ∈
                    (executeLoop ex env maxA ⟨(env.task a).1, (env.task a).2, a⟩
                      (a + 1) m).trace := by
                cases hor : ex.onRetry <;> simp [hor] at hx <;> tauto
              rcases hx2 with hx | hx
              · have := attemptBlock_taskRun_mem hx; omega
              · exact htr a' v e hx
            · refine ⟨attemptBlock ex env a ++ [.shouldRetryQuery a (env.task a).2 true]
                ++ (if ex.onRetry then
                      [.retryCb a (env.task a).2 (ex.retryStrategy.getDelay a)]
                    else []) ++ [.waitDone a] ++ t, by simp [ht]⟩
        · rw [executeLoop_nowait ex env maxA last a m h hsr hlt] at hmem ⊢
          have hrest : Event.ctxCancelled k ∈
              (executeLoop ex env maxA ⟨(env.task a).1, (env.task a).2, a⟩
                (a + 1) m).trace := by
            simp at hmem; exact hmem
          obtain ⟨hak, hres, herr, hnn, htr, t, ht⟩ :=
            ih (a + 1) ⟨(env.task a).1, (env.task a).2, a⟩ k hrest
          refine ⟨by omega, hres, herr, hnn, ?_, ?_⟩
          · intro a' v e hx
            have hx2 : Event.taskRun a' v e ∈ attemptBlock ex env a ∨
                Event.taskRun a' v e ∈
                  (executeLoop ex env maxA ⟨(env.task a).1, (env.task a).2, a⟩
                    (a + 1) m).trace := by
              simp at hx; tauto
            rcases hx2 with hx | hx
            · have := attemptBlock_taskRun_mem hx; omega
            · exact htr a' v e hx
          · exact ⟨attemptBlock ex env a ++ [.shouldRetryQuery a (env.task a).2 true]
              ++ t, by simp [ht]⟩

theorem executeLoop_query_mem (ex : Executor) (env : ExecEnv T) (maxA : Int) :
    ∀ (fuel : Nat) (a : Int) (last : Result T) (k : Int) (e : GoErr) (b : Bool),
      Event.shouldRetryQuery k e b ∈ (executeLoop ex env maxA last a fuel).trace →
        e = (env.task k).2 ∧ e ≠ none ∧ b = ex.retryStrategy.shouldRetry k e := by
  intro fuel
  induction fuel with
  | zero => intro a last k e b hmem; simp [executeLoop_zero] at hmem
  | succ m ih =>
    intro a last k e b hmem
    by_cases h : (env.task a).2 = none
    · rw [executeLoop_success ex env maxA last a m h] at hmem
      simp at hmem
    · cases hsr : ex.retryStrategy.shouldRetry a (env.task a).2 with
      | false =>
        rw [executeLoop_break ex env maxA last a m h hsr] at hmem
        have hx : k = a ∧ e = (env.task a).2 ∧ b = false := by
          simp at hmem; tauto
        obtain ⟨hk, he, hb⟩ := hx
        subst hk; subst he; subst hb
        exact ⟨rfl, h, hsr.symm⟩
      | true =>
        by_cases hlt : a < maxA
        · cases hcd : env.ctxDone a with
          | true =>
            rw [executeLoop_cancel ex env maxA last a m h hsr hlt hcd] at hmem
            have hx : k = a ∧ e = (env.task a).2 ∧ b = true := by
              cases hor : ex.onRetry <;> simp [hor] at hmem <;> tauto
            obtain ⟨hk, he, hb⟩ := hx
            subst hk; subst he; subst hb
            exact ⟨rfl, h, hsr.symm⟩
          | false =>
            rw [executeLoop_wait ex env maxA last a m h hsr hlt hcd] at hmem
            have hx2 : (k = a ∧ e = (env.task a).2 ∧ b = true) ∨
                Event.shouldRetryQuery k e b ∈
                  (executeLoop ex env maxA ⟨(env.task a).1, (env.task a).2, a⟩
                    (a + 1) m).trace := by
              cases hor : ex.onRetry <;> simp [hor] at hmem <;> tauto
            rcases hx2 with ⟨hk, he, hb⟩ | hx
            · subst hk; subst he; subst hb
              exact ⟨rfl, h, hsr.symm⟩
            · exact ih (a + 1) ⟨(env.task a).1, (env.task a).2, a⟩ k e b hx
        · rw [executeLoop_nowait ex env maxA last a m h hsr hlt] at hmem
          have hx2 : (k = a ∧ e = (env.task a).2 ∧ b = true) ∨
              Event.shouldRetryQuery k e b ∈
                (executeLoop ex env maxA ⟨(env.task a).1, (env.task a).2, a⟩
                  (a + 1) m).trace := by
            simp at hmem; tauto
          rcases hx2 with ⟨hk, he, hb⟩ | hx
          · subst hk; subst he; subst hb
            exact ⟨rfl, h, hsr.symm⟩
          · exact ih (a + 1) ⟨(env.task a).1, (env.task a).2, a⟩ k e b hx

theorem execute_def (ex : Executor) (env : ExecEnv T) (zero : T) :
    Execute ex env zero =
      executeLoop ex env ex.retryStrategy.getMaxAttempts ⟨zero, none, 0⟩ 1
        ex.retryStrategy.getMaxAttempts.toNat := rfl

theorem execute_run (ex : Executor) (env : ExecEnv T) (zero : T)
    (h : 1 ≤ ex.retryStrategy.getMaxAttempts) :
    ∃ n : Nat,
      (Execute ex env zero).result.attempt = 1 + n ∧
      ttProj (Execute ex env zero).trace = blockRange ex env 1 (n + 1) ∧
      taskRunCount (Execute ex env zero).trace = n + 1 ∧
      ((Execute ex env zero).result.error = none →
        env.task (Execute ex env zero).result.attempt =
          ((Execute ex env zero).result.value, none)) ∧
      (ex.onTimeout = true →
        timeoutCbCount (Execute ex env zero).trace = n + 1) := by
  obtain ⟨m, hm⟩ : ∃ m, ex.retryStrategy.getMaxAttempts.toNat = m + 1 :=
    ⟨ex.retryStrategy.getMaxAttempts.toNat - 1, by omega⟩
  rw [execute_def, hm]
  obtain ⟨n, _, hrest⟩ :=
    executeLoop_run ex env ex.retryStrategy.getMaxAttempts m 1 ⟨zero, none, 0⟩
  exact ⟨n, hrest⟩

/-! ### Concrete executors and environments used by witnesses and counterexamples -/

/-- Executor whose retry strategy reports `GetMaxAttempts() = 0`
(`NewFixedDelayStrategy(0, 1s)` is a legal constructor call). -/
def exZeroAttempts : Executor :=
  NewExecutor [WithRetryStrategy (NewFixedDelayStrategy 0 second).toRetryStrategy]

/-- A task that always fails, with the parent context never cancelled. -/
def envAlwaysFail : ExecEnv Int :=
  { task := fun _ => (0, some "boom")
    ctxDone := fun _ => false
    ctxErr := "context canceled" }

/-- Executor with `NewFixedDelayStrategy(2, 10ns)`. -/
def exTwoAttempts : Executor :=
  NewExecutor [WithRetryStrategy (NewFixedDelayStrategy 2 10).toRetryStrategy]

/-- A task that fails on attempt 1 and succeeds with value 42 on attempt 2. -/
def envSecondTry : ExecEnv Int :=
  { task := fun a => if a = 2 then (42, none) else (0, some "boom")
    ctxDone := fun _ => false
    ctxErr := "context canceled" }

/-- Executor with `NewFixedDelayStrategy(3, 10ns)`. -/
def exThreeAttempts : Executor :=
  NewExecutor [WithRetryStrategy (NewFixedDelayStrategy 3 10).toRetryStrategy]

/-- A failing task whose parent context is cancelled during the wait after
attempt 1. -/
def envCancelAfterFirst : ExecEnv Int :=
  { task := fun _ => (0, some "boom")
    ctxDone := fun a => decide (a = 1)
    ctxErr := "context canceled" }

/-- Executor with `NewFixedDelayStrategy(2, 10ns)` and an onTimeout callback. -/
def exTwoAttemptsCb : Executor :=
  NewExecutor [WithRetryStrategy (NewFixedDelayStrategy 2 10).toRetryStrategy,
    WithTimeoutCallback]

/-! ### The claims -/

/-- C1: for every Executor whose retry strategy reports `GetMaxAttempts() ≤ 0`,
`Execute` runs the task zero times and returns the zero-valued Result
(zero value, `nil` error, attempt 0) together with a `nil` bare error — a
silent "success" with no attempt having occurred. -/
theorem c1_zero_attempts_silent_success (ex : Executor) (env : ExecEnv T)
    (zero : T) (h : ex.retryStrategy.getMaxAttempts ≤ 0) :
    Execute ex env zero = ⟨⟨zero, none, 0⟩, none, []⟩ ∧
    taskRunCount (Execute ex env zero).trace = 0 := by
  have h0 : ex.retryStrategy.getMaxAttempts.toNat = 0 := by omega
  rw [execute_def, h0]
  exact ⟨rfl, rfl⟩

/-- Witness for C1 at a concrete input: `NewFixedDelayStrategy(0, 1s)` and a
task that always fails. -/
theorem c1_witness :
    exZeroAttempts.retryStrategy.getMaxAttempts ≤ 0 ∧
    Execute exZeroAttempts envAlwaysFail (0 : Int) = ⟨⟨0, none, 0⟩, none, []⟩ := by
  refine ⟨by decide, ?_⟩
  exact (c1_zero_attempts_silent_success exZeroAttempts envAlwaysFail 0 (by decide)).1

/-- C2 counterexample: with `NewFixedDelayStrategy(0, 1s)` and a task that
always fails, the returned Result has a None error although the task never
succeeded (its recorded attempt did not produce the recorded value with a nil
error), refuting the claim as stated for this invocation. -/
theorem c2_counterexample :
    (Execute exZeroAttempts envAlwaysFail (0 : Int)).result.error = none ∧
    envAlwaysFail.task (Execute exZeroAttempts envAlwaysFail (0 : Int)).result.attempt ≠
      ((Execute exZeroAttempts envAlwaysFail (0 : Int)).result.value, none) := by
  decide

/-- C2 (amended with the hypothesis `GetMaxAttempts() ≥ 1` forced by the
counterexample): the Result's attempt field equals the number of attempts
actually run (hence, on failure, the last attempt actually run), and when its
error is None the task's invocation at that very attempt returned the recorded
value with a nil error. -/
theorem c2_result_invariant (ex : Executor) (env : ExecEnv T) (zero : T)
    (h : 1 ≤ ex.retryStrategy.getMaxAttempts) :
    (Execute ex env zero).result.attempt
        = (taskRunCount (Execute ex env zero).trace : Int) ∧
    ((Execute ex env zero).result.error = none →
      env.task (Execute ex env zero).result.attempt =
        ((Execute ex env zero).result.value, none)) := by
  obtain ⟨n, hat, _, hcount, herr, _⟩ := execute_run ex env zero h
  refine ⟨?_, herr⟩
  rw [hat, hcount]
  push_cast
  ring

/-- Witness for C2's amended theorem: two fixed-delay attempts, success on the
second. -/
theorem c2_witness :
    1 ≤ exTwoAttempts.retryStrategy.getMaxAttempts ∧
    (Execute exTwoAttempts envSecondTry (0 : Int)).result.attempt
        = (taskRunCount (Execute exTwoAttempts envSecondTry (0 : Int)).trace : Int) := by
  refine ⟨by decide, ?_⟩
  exact (c2_result_invariant exTwoAttempts envSecondTry 0 (by decide)).1

/-- C3 counterexample: `NewFixedDelayStrategy(0, 1s)` is a public constructor
call whose strategy reports `GetMaxAttempts() = 0 < 1`, refuting the claim as
stated. -/
theorem c3_counterexample :
    ¬ 1 ≤ (NewFixedDelayStrategy 0 second).toRetryStrategy.getMaxAttempts := by
  decide

/-- C3 (amended: constructors store the `maxAttempts` argument verbatim, with
no validation): for every integer argument `m` — arguments below 1 included —
each constructor-built variant reports exactly `m` (no-retry reports exactly
1), so `GetMaxAttempts() ≥ 1` holds precisely when the supplied argument is
≥ 1. -/
theorem c3_get_max_attempts (m : Int) (b inc d : Duration) (q : ℚ)
    (srFn : Option (Int → GoErr → Bool)) (dFn : Option (Int → Duration)) :
    (NewExponentialBackoffStrategy m b q).toRetryStrategy.getMaxAttempts = m ∧
    (NewLinearBackoffStrategy m b inc).toRetryStrategy.getMaxAttempts = m ∧
    (NewFixedDelayStrategy m d).toRetryStrategy.getMaxAttempts = m ∧
    (NewConditionalRetryStrategy m b srFn dFn).toRetryStrategy.getMaxAttempts = m ∧
    NewNoRetryStrategy.toRetryStrategy.getMaxAttempts = 1 ∧
    (1 ≤ (NewExponentialBackoffStrategy m b q).toRetryStrategy.getMaxAttempts
      ↔ 1 ≤ m) ∧
    (1 ≤ (NewLinearBackoffStrategy m b inc).toRetryStrategy.getMaxAttempts
      ↔ 1 ≤ m) ∧
    (1 ≤ (NewFixedDelayStrategy m d).toRetryStrategy.getMaxAttempts ↔ 1 ≤ m) ∧
    (1 ≤ (NewConditionalRetryStrategy m b srFn dFn).toRetryStrategy.getMaxAttempts
      ↔ 1 ≤ m) :=
  ⟨rfl, rfl, rfl, rfl, rfl, Iff.rfl, Iff.rfl, Iff.rfl, Iff.rfl⟩

/-- C4 counterexample: after `s.WithMaxDelay(5s)` the receiver's own
`maxDelay` field has changed (from the default 30s to 5s), refuting the claim
that the receiver is left unchanged. -/
theorem c4_counterexample :
    ((NewExponentialBackoffStrategy 3 second 2).withMaxDelay (5 * second)).1.maxDelay ≠
      (NewExponentialBackoffStrategy 3 second 2).maxDelay := by
  decide

/-- C4 (amended: `WithMaxDelay` mutates the receiver in place): after
`s.WithMaxDelay(d)` the receiver's `maxDelay` equals `d`, its other fields are
unchanged, the returned pointer is the very same (mutated) object, and whenever
`d` differs from the previous cap the receiver's post-call state genuinely
differs from its pre-call state. -/
theorem c4_with_max_delay_mutates (e : ExponentialBackoffStrategy) (d : Duration) :
    (e.withMaxDelay d).1 = { e with maxDelay := d } ∧
    (e.withMaxDelay d).2 = (e.withMaxDelay d).1 ∧
    (e.withMaxDelay d).1.maxDelay = d ∧
    (e.withMaxDelay d).1.maxAttempts = e.maxAttempts ∧
    (e.withMaxDelay d).1.baseDelay = e.baseDelay ∧
    (e.withMaxDelay d).1.multiplier = e.multiplier ∧
    (d ≠ e.maxDelay → (e.withMaxDelay d).1 ≠ e) := by
  refine ⟨rfl, rfl, rfl, rfl, rfl, rfl, ?_⟩
  intro hne heq
  exact hne (congrArg ExponentialBackoffStrategy.maxDelay heq)

/-- Witness for C4's amended theorem: setting a 5s cap on the default 30s
strategy really changes the receiver's state. -/
theorem c4_witness :
    5 * second ≠ (NewExponentialBackoffStrategy 3 second 2).maxDelay ∧
    ((NewExponentialBackoffStrategy 3 second 2).withMaxDelay (5 * second)).1 ≠
      NewExponentialBackoffStrategy 3 second 2 := by
  refine ⟨by decide, ?_⟩
  exact (c4_with_max_delay_mutates (NewExponentialBackoffStrategy 3 second 2)
    (5 * second)).2.2.2.2.2.2 (by decide)

/-- C6: whenever parent cancellation fires during the inter-attempt wait after
some attempt `k` (witnessed by the `ctxCancelled k` trace event), `Execute`
returns immediately: the Result keeps attempt `k`'s value and attempt number
but its error is overwritten with the parent's cancellation error (attempt `k`
itself had failed), the bare error is that same cancellation error, no attempt
beyond `k` is ever started, and the cancellation is the last thing that
happens. -/
theorem c6_parent_cancellation_aborts (ex : Executor) (env : ExecEnv T)
    (zero : T) (k : Int)
    (h : Event.ctxCancelled k ∈ (Execute ex env zero).trace) :
    (Execute ex env zero).result = ⟨(env.task k).1, some env.ctxErr, k⟩ ∧
    (Execute ex env zero).err = some env.ctxErr ∧
    (env.task k).2 ≠ none ∧
    (∀ a v e, Event.taskRun a v e ∈ (Execute ex env zero).trace → a ≤ k) ∧
    ∃ t, (Execute ex env zero).trace = t ++ [Event.ctxCancelled k] := by
  have hc := executeLoop_cancel_mem ex env ex.retryStrategy.getMaxAttempts
    ex.retryStrategy.getMaxAttempts.toNat 1 ⟨zero, none, 0⟩ k h
  exact ⟨hc.2.1, hc.2.2.1, hc.2.2.2.1, hc.2.2.2.2.1, hc.2.2.2.2.2⟩

/-- Witness for C6: three allowed fixed-delay attempts, a failing task, and the
parent context cancelled during the wait after attempt 1. -/
theorem c6_witness :
    Event.ctxCancelled 1 ∈ (Execute exThreeAttempts envCancelAfterFirst (0 : Int)).trace ∧
    (Execute exThreeAttempts envCancelAfterFirst (0 : Int)).err
        = some "context canceled" ∧
    (Execute exThreeAttempts envCancelAfterFirst (0 : Int)).result
        = ⟨0, some "context canceled", 1⟩ := by
  have h := c6_parent_cancellation_aborts exThreeAttempts envCancelAfterFirst
    (0 : Int) 1 (by decide)
  exact ⟨by decide, h.2.1, h.1⟩

/-- C7: `ExecuteWithRetries(ctx, maxRetries, delay, timeout, task)` returns
exactly what `ExecuteSimple` returns on an Executor built from
`FixedDelayStrategy(maxRetries+1, delay)` and `FixedTimeoutStrategy(timeout)`
(so in particular `maxRetries = 2, delay = 500ms, timeout = 3s` matches
Fixed-delay(3, 500ms) + Fixed timeout(3s)). -/
theorem c7_execute_with_retries_equiv (env : ExecEnv T) (maxRetries : Int)
    (delay timeout : Duration) (zero : T) :
    ExecuteWithRetries env maxRetries delay timeout zero =
      ExecuteSimple (specFixedRetryExecutor maxRetries delay timeout) env zero := rfl

/-- C8: every ShouldRetry call recorded during any `Execute` run carries the
error just returned by that very attempt's task, that error is never nil, and
the recorded answer is the strategy's; hence ShouldRetry is only consulted
after a failed attempt and never sees a None error. -/
theorem c8_should_retry_only_after_failure (ex : Executor) (env : ExecEnv T)
    (zero : T) (a : Int) (e : GoErr) (b : Bool)
    (h : Event.shouldRetryQuery a e b ∈ (Execute ex env zero).trace) :
    e = (env.task a).2 ∧ e ≠ none ∧ b = ex.retryStrategy.shouldRetry a e :=
  executeLoop_query_mem ex env ex.retryStrategy.getMaxAttempts
    ex.retryStrategy.getMaxAttempts.toNat 1 ⟨zero, none, 0⟩ a e b h

/-- Witness for C8: two fixed-delay attempts of an always-failing task; the
first attempt's ShouldRetry call carries that attempt's non-nil error. -/
theorem c8_witness :
    Event.shouldRetryQuery 1 (some "boom") true
        ∈ (Execute exTwoAttempts envAlwaysFail (0 : Int)).trace ∧
    (some "boom" : GoErr) ≠ none ∧
    true = exTwoAttempts.retryStrategy.shouldRetry 1 (some "boom") := by
  have h := c8_should_retry_only_after_failure exTwoAttempts envAlwaysFail
    (0 : Int) 1 (some "boom") true (by decide)
  exact ⟨by decide, h.2.1, h.2.2⟩

/-- C9: the bare error returned by `Execute` is always identical to the Error
field of the returned Result, and consequently `ExecuteSimple`'s error is that
same recorded error. -/
theorem c9_bare_error_matches_result (ex : Executor) (env : ExecEnv T) (zero : T) :
    (Execute ex env zero).err = (Execute ex env zero).result.error ∧
    (ExecuteSimple ex env zero).2 = (Execute ex env zero).result.error := by
  have h : (Execute ex env zero).err = (Execute ex env zero).result.error :=
    executeLoop_err_eq ex env ex.retryStrategy.getMaxAttempts
      ex.retryStrategy.getMaxAttempts.toNat 1 ⟨zero, none, 0⟩
  refine ⟨h, ?_⟩
  unfold ExecuteSimple
  cases hout : (Execute ex env zero).err with
  | none => simp only [hout]
  | some e =>
    simp only [hout]
    rw [← h, hout]

/-- C10: when an onTimeout callback is configured, the callback/task-run part
of the trace is exactly, for each attempt `1 … result.attempt` in increasing
order, the callback (with that attempt's timeout) immediately followed by that
attempt's task run — so the callback fires exactly once per attempt, before
the task, and its total invocation count equals the returned attempt field. -/
theorem c10_timeout_callback_each_attempt (ex : Executor) (env : ExecEnv T)
    (zero : T) (h : ex.onTimeout = true) :
    ttProj (Execute ex env zero).trace =
      blockRange ex env 1 (Execute ex env zero).result.attempt.toNat ∧
    timeoutCbCount (Execute ex env zero).trace =
      (Execute ex env zero).result.attempt.toNat := by
  by_cases hm : 1 ≤ ex.retryStrategy.getMaxAttempts
  · obtain ⟨n, hat, hproj, _, _, hcb⟩ := execute_run ex env zero hm
    have hn : (Execute ex env zero).result.attempt.toNat = n + 1 := by
      rw [hat]; omega
    rw [hn, hproj, hcb h]
    exact ⟨rfl, rfl⟩
  · have h0 : ex.retryStrategy.getMaxAttempts.toNat = 0 := by omega
    rw [execute_def, h0]
    exact ⟨rfl, rfl⟩

/-- Witness for C10: a configured onTimeout callback with two fixed-delay
attempts of an always-failing task. -/
theorem c10_witness :
    exTwoAttemptsCb.onTimeout = true ∧
    timeoutCbCount (Execute exTwoAttemptsCb envAlwaysFail (0 : Int)).trace =
      (Execute exTwoAttemptsCb envAlwaysFail (0 : Int)).result.attempt.toNat := by
  exact ⟨rfl, (c10_timeout_callback_each_attempt exTwoAttemptsCb envAlwaysFail
    (0 : Int) rfl).2⟩

end DDNS
